import Mathlib

/-
  Shallow embedding of the detection/monitoring system (Smart Office
  Monitoring).  The presence state machine and monitoring loop come from
  modules/vision_module.py (class VisionSystem), the attendance store from
  modules/database_module.py (class DatabaseManager), and the constants from
  config.py (class Config).

  Machine conventions: timestamps are modelled as integers (seconds);
  `timedelta(minutes=m)` becomes `60 * m` seconds; Python dicts keyed by
  employee id become association lists with a canonical in-place update;
  fallible operations return a result record carrying the success flag and
  error string of the Python result dictionary.
-/

namespace DetectionMonitoring

/-- Presence / attendance status strings 'inside' and 'exited'. -/
inductive Status where
  | inside
  | exited
deriving DecidableEq

/-- Config.ENTRY_EXIT_COOLDOWN_MINUTES = 5 (config.py). -/
def ENTRY_EXIT_COOLDOWN_MINUTES : Int := 5

/-- The cooldown `timedelta(minutes=Config.ENTRY_EXIT_COOLDOWN_MINUTES)` in seconds. -/
def cooldownSecs : Int := 60 * ENTRY_EXIT_COOLDOWN_MINUTES

/-- Config.FACE_RECOGNITION_TOLERANCE = 0.6 (config.py). -/
def FACE_RECOGNITION_TOLERANCE : ℚ := (3 : ℚ) / 5

/-- Lookup in a dict modelled as an association list (`d[k]` / `k in d`). -/
def getAssoc {α : Type} (k : Nat) : List (Nat × α) → Option α
  | [] => none
  | (k2, v) :: rest => if k2 = k then some v else getAssoc k rest

/-- Update in a dict modelled as an association list (`d[k] = v`). -/
def setAssoc {α : Type} (k : Nat) (v : α) : List (Nat × α) → List (Nat × α)
  | [] => [(k, v)]
  | (k2, v2) :: rest => if k2 = k then (k, v) :: rest else (k2, v2) :: setAssoc k v rest

theorem getAssoc_setAssoc_self {α : Type} (k : Nat) (v : α) (l : List (Nat × α)) :
    getAssoc k (setAssoc k v l) = some v := by
  induction l with
  | nil => simp [getAssoc, setAssoc]
  | cons p rest ih =>
    obtain ⟨k2, v2⟩ := p
    by_cases h : k2 = k
    · simp [getAssoc, setAssoc, h]
    · simp [getAssoc, setAssoc, h, ih]

theorem getAssoc_setAssoc_ne {α : Type} {k j : Nat} (v : α) (l : List (Nat × α))
    (hne : j ≠ k) : getAssoc j (setAssoc k v l) = getAssoc j l := by
  have hkj : ¬ k = j := fun h => hne h.symm
  induction l with
  | nil => simp [getAssoc, setAssoc, hkj]
  | cons p rest ih =>
    obtain ⟨k2, v2⟩ := p
    by_cases h : k2 = k
    · subst h
      simp [getAssoc, setAssoc, hkj]
    · simp [getAssoc, setAssoc, h, ih]

/-- The in-memory presence state of VisionSystem: `self.last_seen`
(employee_id → datetime) and `self.current_status` (employee_id → status). -/
structure VisionState where
  last_seen : List (Nat × Int)
  current_status : List (Nat × Status)
deriving DecidableEq

/-- Outcome of one `handle_detection` call: the updated presence state, the
returned message (`None` or "<name> has entered the office"), and whether
`DatabaseManager.log_entry` was called during the handling. -/
structure DetectResult where
  st : VisionState
  message : Option String
  calledEntry : Bool
deriving DecidableEq

/-- VisionSystem.handle_detection (vision_module.py, lines 100-133).
`dbSuccess` is the `result['success']` flag of the `DatabaseManager.log_entry`
call (the attendance store is external to this function); `now` is
`datetime.utcnow()`. -/
def handle_detection (dbSuccess : Bool) (st : VisionState) (id : Nat) (name : String)
    (now : Int) : DetectResult :=
  match getAssoc id st.last_seen with
  | some prev =>
    if now - prev < cooldownSecs then
      ⟨{ st with last_seen := setAssoc id now st.last_seen }, none, false⟩
    else if getAssoc id st.current_status = some Status.exited then
      if dbSuccess then
        ⟨⟨setAssoc id now st.last_seen, setAssoc id Status.inside st.current_status⟩,
          some (name ++ " has entered the office"), true⟩
      else
        ⟨{ st with last_seen := setAssoc id now st.last_seen }, none, true⟩
    else
      ⟨{ st with last_seen := setAssoc id now st.last_seen }, none, false⟩
  | none =>
    if dbSuccess then
      ⟨⟨setAssoc id now st.last_seen, setAssoc id Status.inside st.current_status⟩,
        some (name ++ " has entered the office"), true⟩
    else
      ⟨{ st with last_seen := setAssoc id now st.last_seen }, none, true⟩

/-- VisionSystem.check_exits (vision_module.py, lines 135-153): sweep over the
`last_seen` items, and for each employee whose `current_status` is 'inside' and
whose staleness strictly exceeds the cooldown, call `DatabaseManager.log_exit`
and on success set the status to 'exited'.  `dbExit` is the per-employee
success flag of the `log_exit` call; the second component collects the ids
whose sessions were successfully closed. -/
def check_exits_list (dbExit : Nat → Bool) (now : Int) :
    List (Nat × Int) → List (Nat × Status) → List (Nat × Status) × List Nat
  | [], status => (status, [])
  | (id, lastT) :: rest, status =>
    if getAssoc id status = some Status.inside ∧ cooldownSecs < now - lastT then
      if dbExit id then
        let r := check_exits_list dbExit now rest (setAssoc id Status.exited status)
        (r.1, id :: r.2)
      else
        check_exits_list dbExit now rest status
    else
      check_exits_list dbExit now rest status

/-- The per-frame loop of VisionSystem.process_frame (lines 172-184): feed
each recognized-and-resolved detection `(employee_id, employee.name)` to
`handle_detection`, collecting the emitted messages. -/
def handle_detections (db : Bool) (now : Int) :
    List (Nat × String) → VisionState → VisionState × List String
  | [], st => (st, [])
  | (id, name) :: rest, st =>
    let r := handle_detection db st id name now
    let p := handle_detections db now rest r.st
    (p.1, r.message.toList ++ p.2)

/-- The whole mutable state of a VisionSystem object: the run flag, the
capture handle (`self.camera`, with a count of open handles), the presence
state, and the published frame (`self.current_frame`). -/
structure VisionSys where
  is_running : Bool
  openHandles : Nat
  cameraOpen : Bool
  presence : VisionState
  current_frame : Option Nat
deriving DecidableEq

/-- VisionSystem.start_camera (lines 31-46): construct a capture handle; if
the device opens (`deviceOk` models `self.camera.isOpened()`), set
`is_running` and report success, otherwise report failure. -/
def start_camera (deviceOk : Bool) (s : VisionSys) : VisionSys × Bool :=
  if deviceOk then
    ({ s with cameraOpen := true, openHandles := s.openHandles + 1, is_running := true }, true)
  else
    (s, false)

/-- VisionSystem.start_monitoring_thread (lines 233-240): when not running,
try start_camera and report its outcome (spawning the daemon thread has no
state effect modelled here); when already running, return False. -/
def start_monitoring_thread (deviceOk : Bool) (s : VisionSys) : VisionSys × Bool :=
  if s.is_running = false then
    let p := start_camera deviceOk s
    if p.2 then (p.1, true) else (p.1, false)
  else
    (s, false)

/-- VisionSystem.process_frame (lines 155-217): bail out when the camera is
absent or the system is stopped; bail out when the read fails (`readOk` is the
`ret` flag of `self.camera.read()`); otherwise run every detection through
`handle_detection` and publish the annotated frame.  `frame` stands for the
captured frame, `dets` for the recognized `(employee_id, name)` pairs the
external detector and employee lookup produced for this frame. -/
def process_frame (readOk : Bool) (frame : Nat) (dets : List (Nat × String))
    (db : Bool) (now : Int) (s : VisionSys) : VisionSys × List String :=
  if s.cameraOpen = false ∨ s.is_running = false then
    (s, [])
  else if readOk = false then
    (s, [])
  else
    let p := handle_detections db now dets s.presence
    ({ s with presence := p.1, current_frame := some frame }, p.2)

/-- One iteration of VisionSystem.run_monitoring (lines 226-231):
`process_frame()` followed by `check_exits()`. -/
def monitorTick (readOk : Bool) (frame : Nat) (dets : List (Nat × String))
    (db : Bool) (dbExit : Nat → Bool) (now : Int) (s : VisionSys) :
    VisionSys × List String :=
  let p := process_frame readOk frame dets db now s
  let swept := check_exits_list dbExit now p.1.presence.last_seen p.1.presence.current_status
  ({ p.1 with presence := { p.1.presence with current_status := swept.1 } }, p.2)

/-- A run of `handle_detection` calls for one employee at the given sequence
of tick times (the temporal scenarios of the spec).  Returns the final
presence state, the number of emitted "entered" messages, and the number of
successful `log_entry` calls (sessions opened). -/
def runDetections (db : Bool) (id : Nat) (name : String) :
    List Int → VisionState → VisionState × Nat × Nat
  | [], st => (st, 0, 0)
  | t :: ts, st =>
    let r := handle_detection db st id name t
    let rest := runDetections db id name ts r.st
    (rest.1, (if r.message.isSome then 1 else 0) + rest.2.1,
      (if r.calledEntry && db then 1 else 0) + rest.2.2)

/-- A face embedding: a vector of rationals. -/
abbrev Embedding := List ℚ

/-- The trained recognizer artifact (training_module.py, lines 150-152): a
record with parallel arrays 'encodings' and 'labels'. -/
structure Recognizer where
  encodings : List Embedding
  labels : List Nat
deriving DecidableEq

/-- `np.argmin`: index of the first occurrence of the minimal element
(0 on the empty list). -/
def argminIdx : List ℚ → Nat
  | [] => 0
  | [_] => 0
  | x :: y :: rest =>
    if (y :: rest).getD (argminIdx (y :: rest)) 0 < x then argminIdx (y :: rest) + 1 else 0

/-- Modelled from the spec: `face_recognition.face_distance` is an external
library call; per the spec it computes, for each known embedding, its
Euclidean (or equivalent) distance to the query.  The distance function
itself is a parameter `dist`. -/
def face_distance (dist : Embedding → Embedding → ℚ) (known : List Embedding)
    (query : Embedding) : List ℚ :=
  known.map (fun e => dist e query)

/-- VisionSystem.recognize_face (vision_module.py, lines 65-98), from the
point where the query embedding exists: `None` recognizer or an empty (or
absent) encodings array yields `(None, None)`; otherwise take the argmin of
the distances, accept iff the best distance is at most the tolerance
(reporting the winning distance either way).  An out-of-range label index
would raise IndexError, caught by the handler as `(None, None)`. -/
def recognize_face (dist : Embedding → Embedding → ℚ) (recognizer : Option Recognizer)
    (query : Embedding) : Option Nat × Option ℚ :=
  match recognizer with
  | none => (none, none)
  | some r =>
    if r.encodings.isEmpty then (none, none)
    else
      let distances := face_distance dist r.encodings query
      if distances.isEmpty then (none, none)
      else
        let best_idx := argminIdx distances
        let best_distance := distances.getD best_idx 0
        if best_distance ≤ FACE_RECOGNITION_TOLERANCE then
          match r.labels[best_idx]? with
          | some l => (some l, some best_distance)
          | none => (none, none)
        else
          (none, some best_distance)

/-- One row of the attendance table (database/models.py, class Attendance);
the autoincrement primary key is represented by list position. -/
structure Attendance where
  employee_id : Nat
  entry_time : Int
  exit_time : Option Int
  action : String
  date : Int
  status : Status
deriving DecidableEq

/-- The filter used by the attendance queries:
`employee_id == e AND date == today AND status == 'inside'`. -/
def isActiveFor (emp : Nat) (today : Int) (s : Attendance) : Prop :=
  s.employee_id = emp ∧ s.date = today ∧ s.status = Status.inside

instance (emp : Nat) (today : Int) (s : Attendance) : Decidable (isActiveFor emp today s) := by
  unfold isActiveFor
  infer_instance

/-- `.first()` of the query for the active inside record of an employee
today (database_module.py, lines 77-83 / 116-122). -/
def findInside (emp : Nat) (today : Int) : List Attendance → Option Attendance
  | [] => none
  | s :: rest => if isActiveFor emp today s then some s else findInside emp today rest

/-- Set `exit_time = now` and `status = 'exited'` on the first active inside
record of the employee today, leaving everything else unchanged. -/
def markFirstInsideExited (emp : Nat) (today now : Int) : List Attendance → List Attendance
  | [] => []
  | s :: rest =>
    if isActiveFor emp today s then
      { s with exit_time := some now, status := Status.exited } :: rest
    else
      s :: markFirstInsideExited emp today now rest

/-- The hard-coded duplicate-entry cooldown of `DatabaseManager.log_entry`:
`timedelta(minutes=5)` (database_module.py, line 88), written as a literal in
the source rather than read from Config. -/
def dbEntryCooldownSecs : Int := 60 * 5

/-- A fresh attendance row as created by log_entry (lines 97-103). -/
def mkAttendance (emp : Nat) (now today : Int) (action : String) : Attendance :=
  ⟨emp, now, none, action, today, Status.inside⟩

/-- Result of a DatabaseManager attendance operation: the table after the
call, the `success` flag, and the `error` string if any. -/
structure LogResult where
  table : List Attendance
  success : Bool
  error : Option String
deriving DecidableEq

/-- DatabaseManager.log_entry (database_module.py, lines 72-109): reject when
an active inside record of today is younger than the 5-minute hard-coded
cooldown; otherwise close that record (if any) and append a fresh inside
record.  `now` is `datetime.utcnow()`, `today` is `date.today()`. -/
def log_entry (emp : Nat) (now today : Int) (action : String)
    (table : List Attendance) : LogResult :=
  match findInside emp today table with
  | some existing =>
    if now - existing.entry_time < dbEntryCooldownSecs then
      ⟨table, false, some "Entry already logged recently"⟩
    else
      ⟨markFirstInsideExited emp today now table ++ [mkAttendance emp now today action],
        true, none⟩
  | none => ⟨table ++ [mkAttendance emp now today action], true, none⟩

/-- DatabaseManager.log_exit (database_module.py, lines 111-132): close the
first active inside record of the employee today, or fail when none exists. -/
def log_exit (emp : Nat) (now today : Int) (table : List Attendance) : LogResult :=
  match findInside emp today table with
  | some _ => ⟨markFirstInsideExited emp today now table, true, none⟩
  | none => ⟨table, false, some "No active entry found"⟩

/-- Number of inside sessions of an employee on a day. -/
def insideCount (emp : Nat) (today : Int) (table : List Attendance) : Nat :=
  table.countP (fun s => decide (isActiveFor emp today s))

/-- The attendance-store invariant: at most one inside session per employee
and day. -/
def dbInvariant (table : List Attendance) : Prop :=
  ∀ emp today, insideCount emp today table ≤ 1

/-- C1 counterexample: starting from an empty presence state (identity 1 is
Unseen), a detection whose `log_entry` call fails still changes `last_seen`
(the fall-through at the end of handle_detection writes `last_seen[id] = now`),
so the in-memory PresenceState is NOT left unchanged as the claim states. -/
theorem claim1_counterexample :
    (handle_detection false ⟨[], []⟩ 1 "A" 0).st.last_seen ≠ [] := by
  decide

/-- C1 (amended): when the `log_entry` call fails, `handle_detection` leaves
`current_status` unchanged and emits no message, but it DOES set
`last_seen[id] = now`; hence the next match within the cooldown takes the
debounce branch and does not retry the transition (an identity that was
Unseen never retries at all, since its status never becomes 'exited'). -/
theorem claim1_amended (st : VisionState) (id : Nat) (name : String) (now : Int) :
    (handle_detection false st id name now).st.current_status = st.current_status ∧
    (handle_detection false st id name now).st.last_seen = setAssoc id now st.last_seen ∧
    (handle_detection false st id name now).message = none := by
  unfold handle_detection
  cases h : getAssoc id st.last_seen with
  | none => simp
  | some prev =>
    by_cases h1 : now - prev < cooldownSecs
    · simp [h1]
    · by_cases h2 : getAssoc id st.current_status = some Status.exited
      · simp [h1, h2]
      · simp [h1, h2]

/-- C2 counterexample: the first `start()` on a stopped system returns True,
but a second `start()` while running returns False — not success as the claim
states (`start_monitoring_thread` falls through to `return False`). -/
theorem claim2_counterexample :
    (start_monitoring_thread true ⟨false, 0, false, ⟨[], []⟩, none⟩).2 = true ∧
    (start_monitoring_thread true
        (start_monitoring_thread true ⟨false, 0, false, ⟨[], []⟩, none⟩).1).2 = false := by
  decide

/-- C2 (amended): calling start while already running is a no-op on the state
(no second capture handle is opened) but reports FAILURE (False), not success:
from a stopped state with a working device, the first start returns True and
opens exactly one new capture handle; the second start returns False and
leaves the state (hence the handle count) unchanged. -/
theorem claim2_amended (s : VisionSys) (d : Bool) (h : s.is_running = false) :
    (start_monitoring_thread true s).2 = true ∧
    (start_monitoring_thread true s).1.openHandles = s.openHandles + 1 ∧
    (start_monitoring_thread true s).1.is_running = true ∧
    start_monitoring_thread d (start_monitoring_thread true s).1 =
      ((start_monitoring_thread true s).1, false) := by
  simp [start_monitoring_thread, start_camera, h]

/-- C2 witness: the amended behaviour at a concrete fresh system state. -/
theorem claim2_witness :
    (start_monitoring_thread true ⟨false, 0, false, ⟨[], []⟩, none⟩).2 = true ∧
    (start_monitoring_thread true ⟨false, 0, false, ⟨[], []⟩, none⟩).1.openHandles = 0 + 1 ∧
    (start_monitoring_thread true ⟨false, 0, false, ⟨[], []⟩, none⟩).1.is_running = true ∧
    start_monitoring_thread true (start_monitoring_thread true ⟨false, 0, false, ⟨[], []⟩, none⟩).1 =
      ((start_monitoring_thread true ⟨false, 0, false, ⟨[], []⟩, none⟩).1, false) :=
  claim2_amended ⟨false, 0, false, ⟨[], []⟩, none⟩ true rfl

/-- C3 counterexample: identity 1 has status 'exited' with last_seen = 0; a
qualifying match at now = 10 (within the cooldown) emits nothing, calls no
log_entry, and leaves the status 'exited' — contradicting the claim that a
match re-enters an Exited identity regardless of the elapsed time. -/
theorem claim3_counterexample :
    (handle_detection true ⟨[(1, 0)], [(1, Status.exited)]⟩ 1 "A" 10).message = none ∧
    getAssoc 1 (handle_detection true ⟨[(1, 0)], [(1, Status.exited)]⟩ 1 "A" 10).st.current_status
      = some Status.exited ∧
    (handle_detection true ⟨[(1, 0)], [(1, Status.exited)]⟩ 1 "A" 10).calledEntry = false := by
  decide

/-- C3 (amended): for an identity with status Exited, a qualifying match
re-enters (opens a session, sets status Inside, sets last_seen, emits the
entered message) only when `now - last_seen ≥ cooldown`; a match with
`now - last_seen < cooldown` takes the debounce branch first, updating
last_seen only and emitting nothing. -/
theorem claim3_amended (st : VisionState) (id : Nat) (name : String) (now prev : Int)
    (hprev : getAssoc id st.last_seen = some prev)
    (hex : getAssoc id st.current_status = some Status.exited) :
    (cooldownSecs ≤ now - prev →
      handle_detection true st id name now =
        ⟨⟨setAssoc id now st.last_seen, setAssoc id Status.inside st.current_status⟩,
          some (name ++ " has entered the office"), true⟩) ∧
    (now - prev < cooldownSecs →
      handle_detection true st id name now =
        ⟨⟨setAssoc id now st.last_seen, st.current_status⟩, none, false⟩) := by
  constructor
  · intro hge
    have h1 : ¬ (now - prev < cooldownSecs) := not_lt.mpr hge
    simp [handle_detection, hprev, h1, hex]
  · intro hlt
    simp [handle_detection, hprev, hlt]

/-- C3 witness: the amended re-entry behaviour at a concrete exited state and
a concrete time past the cooldown. -/
theorem claim3_witness :
    (cooldownSecs ≤ 400 - 0 →
      handle_detection true ⟨[(1, 0)], [(1, Status.exited)]⟩ 1 "A" 400 =
        ⟨⟨[(1, 400)], [(1, Status.inside)]⟩, some "A has entered the office", true⟩) ∧
    (400 - 0 < cooldownSecs →
      handle_detection true ⟨[(1, 0)], [(1, Status.exited)]⟩ 1 "A" 400 =
        ⟨⟨[(1, 400)], [(1, Status.exited)]⟩, none, false⟩) :=
  claim3_amended ⟨[(1, 0)], [(1, Status.exited)]⟩ 1 "A" 400 0 rfl rfl

/-- C5: for every distance function and every query embedding, matching with
no loaded recognizer, or against a recognizer whose gallery is empty, yields
no-match with no distance reported. -/
theorem claim5_empty_gallery (dist : Embedding → Embedding → ℚ) (query : Embedding) :
    recognize_face dist none query = (none, none) ∧
    ∀ r : Recognizer, r.encodings = [] → recognize_face dist (some r) query = (none, none) := by
  refine ⟨rfl, ?_⟩
  intro r h
  simp [recognize_face, h]

/-- C5 witness: the empty-gallery behaviour at a concrete distance function,
recognizer and query. -/
theorem claim5_witness :
    recognize_face (fun _ _ => 0) none [] = (none, none) ∧
    recognize_face (fun _ _ => 0) (some ⟨[], []⟩) [] = (none, none) :=
  ⟨(claim5_empty_gallery (fun _ _ => 0) []).1,
    (claim5_empty_gallery (fun _ _ => 0) []).2 ⟨[], []⟩ rfl⟩

/-- C8 counterexample: on a tick whose frame read fails, the exit sweep still
runs: with identity 1 Inside and stale (last_seen = 0 at now = 301 > cooldown),
the failed-read tick transitions its status to 'exited' — so the PresenceState
map IS updated during that tick, contradicting the claim. -/
theorem claim8_counterexample :
    (monitorTick false 0 [] true (fun _ => true) 301
        ⟨true, 1, true, ⟨[(1, 0)], [(1, Status.inside)]⟩, none⟩).1.presence.current_status
      = [(1, Status.exited)] ∧
    (⟨true, 1, true, ⟨[(1, 0)], [(1, Status.inside)]⟩, none⟩ :
        VisionSys).presence.current_status = [(1, Status.inside)] ∧
    Status.exited ≠ Status.inside := by
  decide

/-- C8 (amended): when the frame read fails, the frame-processing part of the
tick is skipped — last_seen, the published frame, the run flag and every other
field are unchanged and no messages are emitted — and the loop continues; but
the exit sweep still runs in that tick, so `current_status` becomes exactly
the sweep of the unchanged state (and may transition Inside→Exited). -/
theorem claim8_amended (frame : Nat) (dets : List (Nat × String)) (db : Bool)
    (dbExit : Nat → Bool) (now : Int) (s : VisionSys) :
    monitorTick false frame dets db dbExit now s =
      ({ s with presence := { s.presence with current_status :=
          (check_exits_list dbExit now s.presence.last_seen s.presence.current_status).1 } },
        ([] : List String)) := by
  unfold monitorTick process_frame
  by_cases h : s.cameraOpen = false ∨ s.is_running = false
  · simp [h]
  · simp [h]

theorem argminIdx_lt_length (l : List ℚ) (h : l ≠ []) : argminIdx l < l.length := by
  induction l with
  | nil => cases h rfl
  | cons x tail ih =>
    cases tail with
    | nil => simp [argminIdx]
    | cons y rest =>
      have h2 := ih (by simp)
      show argminIdx (x :: y :: rest) < rest.length + 1 + 1
      rw [show argminIdx (x :: y :: rest) =
          (if (y :: rest).getD (argminIdx (y :: rest)) 0 < x
           then argminIdx (y :: rest) + 1 else 0) from rfl]
      by_cases hc : (y :: rest).getD (argminIdx (y :: rest)) 0 < x
      · rw [if_pos hc]
        simp only [List.length_cons] at h2
        omega
      · rw [if_neg hc]
        omega

theorem argminIdx_le (l : List ℚ) :
    ∀ i, i < l.length → l.getD (argminIdx l) 0 ≤ l.getD i 0 := by
  induction l with
  | nil => intro i h; simp at h
  | cons x tail ih =>
    cases tail with
    | nil =>
      intro i h
      have hi : i = 0 := by simpa using h
      subst hi
      exact le_refl _
    | cons y rest =>
      intro i hi
      rw [show argminIdx (x :: y :: rest) =
          (if (y :: rest).getD (argminIdx (y :: rest)) 0 < x
           then argminIdx (y :: rest) + 1 else 0) from rfl]
      by_cases hc : (y :: rest).getD (argminIdx (y :: rest)) 0 < x
      · rw [if_pos hc]
        cases i with
        | zero =>
          rw [List.getD_cons_succ, List.getD_cons_zero]
          exact le_of_lt hc
        | succ i2 =>
          rw [List.getD_cons_succ, List.getD_cons_succ]
          exact ih i2 (by simpa using hi)
      · have hxm : x ≤ (y :: rest).getD (argminIdx (y :: rest)) 0 := not_lt.mp hc
        rw [if_neg hc]
        cases i with
        | zero => exact le_refl _
        | succ i2 =>
          rw [List.getD_cons_zero, List.getD_cons_succ]
          exact le_trans hxm (ih i2 (by simpa using hi))

theorem argminIdx_first (l : List ℚ) :
    ∀ i, i < argminIdx l → l.getD (argminIdx l) 0 < l.getD i 0 := by
  induction l with
  | nil => intro i h; simp [argminIdx] at h
  | cons x tail ih =>
    cases tail with
    | nil => intro i h; simp [argminIdx] at h
    | cons y rest =>
      intro i hi
      rw [show argminIdx (x :: y :: rest) =
          (if (y :: rest).getD (argminIdx (y :: rest)) 0 < x
           then argminIdx (y :: rest) + 1 else 0) from rfl] at hi ⊢
      by_cases hc : (y :: rest).getD (argminIdx (y :: rest)) 0 < x
      · rw [if_pos hc] at hi ⊢
        cases i with
        | zero =>
          rw [List.getD_cons_succ, List.getD_cons_zero]
          exact hc
        | succ i2 =>
          rw [List.getD_cons_succ, List.getD_cons_succ]
          exact ih i2 (by omega)
      · rw [if_neg hc] at hi
        omega

/-- C4: for every distance function, every query and every non-empty gallery,
the matcher picks the entry of minimum distance (first-occurring minimal index
on ties) and accepts iff that distance is at most the tolerance, reporting the
winning distance even on rejection; the returned identity, when present, is
always the label at the minimal index, never a non-minimal entry. -/
theorem claim4_matcher (dist : Embedding → Embedding → ℚ) (r : Recognizer)
    (query : Embedding) (h1 : r.encodings ≠ [])
    (h2 : r.labels.length = r.encodings.length) :
    ∃ ds j, ds = face_distance dist r.encodings query ∧ j = argminIdx ds ∧
      j < ds.length ∧
      (∀ i, i < ds.length → ds.getD j 0 ≤ ds.getD i 0) ∧
      (∀ i, i < j → ds.getD j 0 < ds.getD i 0) ∧
      recognize_face dist (some r) query =
        (if ds.getD j 0 ≤ FACE_RECOGNITION_TOLERANCE
         then (some (r.labels.getD j 0), some (ds.getD j 0))
         else (none, some (ds.getD j 0))) := by
  have hne : face_distance dist r.encodings query ≠ [] := by
    simpa [face_distance] using h1
  have hjlt : argminIdx (face_distance dist r.encodings query) <
      (face_distance dist r.encodings query).length :=
    argminIdx_lt_length _ hne
  refine ⟨face_distance dist r.encodings query, argminIdx (face_distance dist r.encodings query),
    rfl, rfl, hjlt, argminIdx_le _, argminIdx_first _, ?_⟩
  have hlen : (face_distance dist r.encodings query).length = r.encodings.length := by
    simp [face_distance]
  have hjlab : argminIdx (face_distance dist r.encodings query) < r.labels.length := by
    omega
  have hlab : r.labels[argminIdx (face_distance dist r.encodings query)]? =
      some (r.labels.getD (argminIdx (face_distance dist r.encodings query)) 0) := by
    rw [List.getElem?_eq_getElem hjlab, List.getD_eq_getElem _ _ hjlab]
  obtain ⟨encs, labs⟩ := r
  cases encs with
  | nil => exact absurd rfl h1
  | cons e0 es =>
    dsimp only at hlab ⊢
    rw [show recognize_face dist (some ⟨e0 :: es, labs⟩) query =
        (if (face_distance dist (e0 :: es) query).getD
              (argminIdx (face_distance dist (e0 :: es) query)) 0 ≤ FACE_RECOGNITION_TOLERANCE
         then
           match labs[argminIdx (face_distance dist (e0 :: es) query)]? with
           | some l => ((some l : Option Nat),
               some ((face_distance dist (e0 :: es) query).getD
                 (argminIdx (face_distance dist (e0 :: es) query)) 0))
           | none => (none, none)
         else
           (none, some ((face_distance dist (e0 :: es) query).getD
             (argminIdx (face_distance dist (e0 :: es) query)) 0))) from rfl]
    rw [hlab]

/-- C4 witness: the concrete tolerance scenario of the spec — a gallery of two
entries at distances 0.58 and 0.61 from the query, tolerance 0.6: the 0.58
entry is the minimum and is accepted. -/
theorem claim4_witness :
    ∃ ds j,
      ds = face_distance (fun e q => e.headD 0 + q.headD 0)
        [[(58 : ℚ)/100], [(61 : ℚ)/100]] [0] ∧
      j = argminIdx ds ∧ j < ds.length ∧
      (∀ i, i < ds.length → ds.getD j 0 ≤ ds.getD i 0) ∧
      (∀ i, i < j → ds.getD j 0 < ds.getD i 0) ∧
      recognize_face (fun e q => e.headD 0 + q.headD 0)
          (some ⟨[[(58 : ℚ)/100], [(61 : ℚ)/100]], [4, 9]⟩) [0] =
        (if ds.getD j 0 ≤ FACE_RECOGNITION_TOLERANCE
         then (some ((⟨[[(58 : ℚ)/100], [(61 : ℚ)/100]], [4, 9]⟩ : Recognizer).labels.getD j 0),
               some (ds.getD j 0))
         else (none, some (ds.getD j 0))) :=
  claim4_matcher (fun e q => e.headD 0 + q.headD 0)
    ⟨[[(58 : ℚ)/100], [(61 : ℚ)/100]], [4, 9]⟩ [0] (by simp) rfl

theorem handle_detection_debounce (db : Bool) (st : VisionState) (id : Nat) (name : String)
    (now prev : Int) (hprev : getAssoc id st.last_seen = some prev)
    (hlt : now - prev < cooldownSecs) :
    handle_detection db st id name now =
      ⟨{ st with last_seen := setAssoc id now st.last_seen }, none, false⟩ := by
  simp [handle_detection, hprev, hlt]

theorem handle_detection_unseen (st : VisionState) (id : Nat) (name : String) (now : Int)
    (hnone : getAssoc id st.last_seen = none) :
    handle_detection true st id name now =
      ⟨⟨setAssoc id now st.last_seen, setAssoc id Status.inside st.current_status⟩,
        some (name ++ " has entered the office"), true⟩ := by
  simp [handle_detection, hnone]

theorem runDetections_debounce (id : Nat) (name : String) (t0 : Int) :
    ∀ (ts : List Int) (st : VisionState) (prev : Int),
      getAssoc id st.last_seen = some prev → t0 ≤ prev →
      List.Chain (· ≤ ·) prev ts →
      (∀ t ∈ ts, t < t0 + cooldownSecs) →
      (runDetections true id name ts st).2.1 = 0 ∧
      (runDetections true id name ts st).2.2 = 0 ∧
      (runDetections true id name ts st).1.current_status = st.current_status := by
  intro ts
  induction ts with
  | nil => intro st prev h1 h2 h3 h4; exact ⟨rfl, rfl, rfl⟩
  | cons t ts ih =>
    intro st prev h1 h2 h3 h4
    rw [List.chain_cons] at h3
    have ht : t < t0 + cooldownSecs := h4 t (by simp)
    have hlt : t - prev < cooldownSecs := by omega
    have hd := handle_detection_debounce true st id name t prev h1 hlt
    have hnext := ih { st with last_seen := setAssoc id t st.last_seen } t
      (by simp [getAssoc_setAssoc_self]) (le_trans h2 h3.1) h3.2
      (fun u hu => h4 u (List.mem_cons_of_mem t hu))
    simp only [runDetections]
    rw [hd]
    simpa using hnext

/-- C6: starting from Unseen, with the attendance store succeeding, an
identity matched at time t0 and then at any nondecreasing sequence of times
all within t0 + cooldown produces exactly one entered message and exactly one
successful log_entry call (one session opened), ends with status Inside, and
(last conjunct) every match within the cooldown of the previous sighting only
rewrites last_seen and emits nothing. -/
theorem claim6_debounce (st : VisionState) (id : Nat) (name : String) (t0 : Int)
    (ts : List Int) (hunseen : getAssoc id st.last_seen = none)
    (hchain : List.Chain (· ≤ ·) t0 ts)
    (hwin : ∀ t ∈ ts, t < t0 + cooldownSecs) :
    (runDetections true id name (t0 :: ts) st).2.1 = 1 ∧
    (runDetections true id name (t0 :: ts) st).2.2 = 1 ∧
    getAssoc id (runDetections true id name (t0 :: ts) st).1.current_status
      = some Status.inside ∧
    (∀ (st2 : VisionState) (id2 : Nat) (name2 : String) (now prev : Int),
      getAssoc id2 st2.last_seen = some prev → now - prev < cooldownSecs →
      handle_detection true st2 id2 name2 now =
        ⟨{ st2 with last_seen := setAssoc id2 now st2.last_seen }, none, false⟩) := by
  have h0 := handle_detection_unseen st id name t0 hunseen
  have hrest := runDetections_debounce id name t0 ts
    ⟨setAssoc id t0 st.last_seen, setAssoc id Status.inside st.current_status⟩ t0
    (by simp [getAssoc_setAssoc_self]) (le_refl t0) hchain hwin
  refine ⟨?_, ?_, ?_,
    fun st2 id2 name2 now prev ha hb => handle_detection_debounce true st2 id2 name2 now prev ha hb⟩
  · simp only [runDetections]
    rw [h0]
    simpa using hrest.1
  · simp only [runDetections]
    rw [h0]
    simpa using hrest.2.1
  · simp only [runDetections]
    rw [h0]
    simp [hrest.2.2, getAssoc_setAssoc_self]

/-- C6 witness: identity 1 matched at times 0, 1, 2 (all within the 300 s
cooldown) from an empty presence state. -/
theorem claim6_witness :
    (runDetections true 1 "A" (0 :: [1, 2]) ⟨[], []⟩).2.1 = 1 ∧
    (runDetections true 1 "A" (0 :: [1, 2]) ⟨[], []⟩).2.2 = 1 ∧
    getAssoc 1 (runDetections true 1 "A" (0 :: [1, 2]) ⟨[], []⟩).1.current_status
      = some Status.inside ∧
    (∀ (st2 : VisionState) (id2 : Nat) (name2 : String) (now prev : Int),
      getAssoc id2 st2.last_seen = some prev → now - prev < cooldownSecs →
      handle_detection true st2 id2 name2 now =
        ⟨{ st2 with last_seen := setAssoc id2 now st2.last_seen }, none, false⟩) :=
  claim6_debounce ⟨[], []⟩ 1 "A" 0 [1, 2] rfl
    (List.Chain.cons (by decide) (List.Chain.cons (by decide) List.Chain.nil)) (by decide)

theorem check_exits_not_mem (dbExit : Nat → Bool) (now : Int) :
    ∀ (items : List (Nat × Int)) (status : List (Nat × Status)) (id : Nat),
      id ∉ items.map Prod.fst →
      getAssoc id (check_exits_list dbExit now items status).1 = getAssoc id status ∧
      id ∉ (check_exits_list dbExit now items status).2 := by
  intro items
  induction items with
  | nil => intro status id h; exact ⟨rfl, by simp [check_exits_list]⟩
  | cons p rest ih =>
    intro status id h
    obtain ⟨k, t⟩ := p
    simp only [List.map_cons, List.mem_cons, not_or] at h
    obtain ⟨hk, hrest⟩ := h
    simp only [check_exits_list]
    by_cases hc : getAssoc k status = some Status.inside ∧ cooldownSecs < now - t
    · rw [if_pos hc]
      by_cases hdb : dbExit k = true
      · rw [if_pos hdb]
        refine ⟨?_, ?_⟩
        · rw [(ih (setAssoc k Status.exited status) id hrest).1,
            getAssoc_setAssoc_ne _ _ hk]
        · intro hmem
          rcases List.mem_cons.mp hmem with h1 | h2
          · exact hk h1
          · exact (ih (setAssoc k Status.exited status) id hrest).2 h2
      · rw [if_neg hdb]
        exact ih status id hrest
    · rw [if_neg hc]
      exact ih status id hrest

theorem check_exits_spec (dbExit : Nat → Bool) (now : Int) :
    ∀ (items : List (Nat × Int)) (status : List (Nat × Status)) (id : Nat) (lastT : Int),
      (items.map Prod.fst).Nodup → (id, lastT) ∈ items → dbExit id = true →
      (getAssoc id (check_exits_list dbExit now items status).1 = some Status.exited ↔
        (getAssoc id status = some Status.exited ∨
          (getAssoc id status = some Status.inside ∧ cooldownSecs < now - lastT))) ∧
      (id ∈ (check_exits_list dbExit now items status).2 ↔
        (getAssoc id status = some Status.inside ∧ cooldownSecs < now - lastT)) := by
  intro items
  induction items with
  | nil => intro status id lastT hnd hmem; cases hmem
  | cons p rest ih =>
    intro status id lastT hnd hmem hdb
    obtain ⟨k, t⟩ := p
    simp only [List.map_cons, List.nodup_cons] at hnd
    rcases List.mem_cons.mp hmem with heq | hmemrest
    · -- this entry is the one for id
      simp only [Prod.mk.injEq] at heq
      obtain ⟨rfl, rfl⟩ := heq
      simp only [check_exits_list]
      by_cases hc : getAssoc id status = some Status.inside ∧ cooldownSecs < now - lastT
      · rw [if_pos hc, if_pos hdb]
        have hnm := check_exits_not_mem dbExit now rest (setAssoc id Status.exited status) id hnd.1
        constructor
        · rw [hnm.1, getAssoc_setAssoc_self]
          exact iff_of_true rfl (Or.inr hc)
        · exact iff_of_true (List.mem_cons_self id _) hc
      · rw [if_neg hc]
        have hnm := check_exits_not_mem dbExit now rest status id hnd.1
        constructor
        · rw [hnm.1]
          constructor
          · exact fun h => Or.inl h
          · rintro (h | h)
            · exact h
            · exact absurd h hc
        · exact iff_of_false hnm.2 hc
    · -- the entry for id is further down the list
      have hidmap : id ∈ rest.map Prod.fst := List.mem_map_of_mem Prod.fst hmemrest
      have hk : ¬ k = id := fun he => hnd.1 (by rw [he]; exact hidmap)
      have hik : id ≠ k := fun he => hk he.symm
      simp only [check_exits_list]
      by_cases hc : getAssoc k status = some Status.inside ∧ cooldownSecs < now - t
      · by_cases hdbk : dbExit k = true
        · rw [if_pos hc, if_pos hdbk]
          have hrec := ih (setAssoc k Status.exited status) id lastT hnd.2 hmemrest hdb
          rw [getAssoc_setAssoc_ne _ _ hik] at hrec
          constructor
          · exact hrec.1
          · simp only [List.mem_cons]
            constructor
            · rintro (h | h)
              · exact absurd h hik
              · exact hrec.2.mp h
            · intro h
              exact Or.inr (hrec.2.mpr h)
        · rw [if_pos hc, if_neg hdbk]
          exact ih status id lastT hnd.2 hmemrest hdb
      · rw [if_neg hc]
        exact ih status id lastT hnd.2 hmemrest hdb

theorem getAssoc_setAssoc_inside (id3 id : Nat) (status : List (Nat × Status)) :
    getAssoc id3 (setAssoc id Status.inside status) = some Status.exited →
    getAssoc id3 status = some Status.exited := by
  by_cases hid : id3 = id
  · subst hid
    rw [getAssoc_setAssoc_self]
    intro h
    simp at h
  · rw [getAssoc_setAssoc_ne _ _ hid]
    exact fun h => h

theorem handle_detection_no_exit (db : Bool) (st : VisionState) (id : Nat) (name : String)
    (now : Int) (id3 : Nat) :
    getAssoc id3 (handle_detection db st id name now).st.current_status = some Status.exited →
    getAssoc id3 st.current_status = some Status.exited := by
  unfold handle_detection
  cases h : getAssoc id st.last_seen with
  | none =>
    cases db
    · simp
    · simp
      exact getAssoc_setAssoc_inside id3 id st.current_status
  | some prev =>
    by_cases h1 : now - prev < cooldownSecs
    · simp [h1]
    · by_cases h2 : getAssoc id st.current_status = some Status.exited
      · cases db
        · simp [h1, h2]
        · simp [h1, h2]
          exact getAssoc_setAssoc_inside id3 id st.current_status
      · simp [h1, h2]

/-- C7: the exit sweep visits every entry of last_seen (whether or not the
identity was detected this tick) and, for an identity whose store call
succeeds, exits it exactly when its status is Inside and now - last_seen
strictly exceeds the cooldown: after the sweep the status is Exited iff it
already was or the strict-staleness condition held, the session is closed
(log_exit succeeds) iff the condition held, and (last conjunct) the sweep is
the only Inside→Exited path — handle_detection never produces status Exited
for any identity that was not already Exited. -/
theorem claim7_exit_sweep (st : VisionState) (dbExit : Nat → Bool) (now : Int)
    (id : Nat) (lastT : Int)
    (hnd : (st.last_seen.map Prod.fst).Nodup)
    (hmem : (id, lastT) ∈ st.last_seen)
    (hdb : dbExit id = true) :
    (getAssoc id (check_exits_list dbExit now st.last_seen st.current_status).1
        = some Status.exited ↔
      (getAssoc id st.current_status = some Status.exited ∨
        (getAssoc id st.current_status = some Status.inside ∧ cooldownSecs < now - lastT))) ∧
    (id ∈ (check_exits_list dbExit now st.last_seen st.current_status).2 ↔
      (getAssoc id st.current_status = some Status.inside ∧ cooldownSecs < now - lastT)) ∧
    (∀ (db : Bool) (st2 : VisionState) (id2 : Nat) (name2 : String) (now2 : Int) (id3 : Nat),
      getAssoc id3 (handle_detection db st2 id2 name2 now2).st.current_status
          = some Status.exited →
      getAssoc id3 st2.current_status = some Status.exited) := by
  have h := check_exits_spec dbExit now st.last_seen st.current_status id lastT hnd hmem hdb
  exact ⟨h.1, h.2, fun db st2 id2 name2 now2 id3 =>
    handle_detection_no_exit db st2 id2 name2 now2 id3⟩

/-- C7 witness: identity 1 Inside with last_seen = 0 at now = 301 (strictly
past the 300 s cooldown), store succeeding. -/
theorem claim7_witness :
    (getAssoc 1 (check_exits_list (fun _ => true) 301 [(1, 0)] [(1, Status.inside)]).1
        = some Status.exited ↔
      (getAssoc 1 [(1, Status.inside)] = some Status.exited ∨
        (getAssoc 1 [(1, Status.inside)] = some Status.inside ∧ cooldownSecs < 301 - 0))) ∧
    (1 ∈ (check_exits_list (fun _ => true) 301 [(1, 0)] [(1, Status.inside)]).2 ↔
      (getAssoc 1 [(1, Status.inside)] = some Status.inside ∧ cooldownSecs < 301 - 0)) ∧
    (∀ (db : Bool) (st2 : VisionState) (id2 : Nat) (name2 : String) (now2 : Int) (id3 : Nat),
      getAssoc id3 (handle_detection db st2 id2 name2 now2).st.current_status
          = some Status.exited →
      getAssoc id3 st2.current_status = some Status.exited) :=
  claim7_exit_sweep ⟨[(1, 0)], [(1, Status.inside)]⟩ (fun _ => true) 301 1 0
    (by decide) (by decide) rfl

theorem insideCount_nil (e : Nat) (d : Int) : insideCount e d [] = 0 := rfl

theorem insideCount_cons (e : Nat) (d : Int) (s : Attendance) (rest : List Attendance) :
    insideCount e d (s :: rest) =
      insideCount e d rest + (if isActiveFor e d s then 1 else 0) := by
  by_cases hs : isActiveFor e d s <;> simp [insideCount, List.countP_cons, hs]

theorem insideCount_append (e : Nat) (d : Int) (l1 l2 : List Attendance) :
    insideCount e d (l1 ++ l2) = insideCount e d l1 + insideCount e d l2 := by
  simp [insideCount, List.countP_append]

theorem isActive_mk (e emp : Nat) (d now today : Int) (act : String) :
    isActiveFor e d (mkAttendance emp now today act) ↔ (emp = e ∧ today = d) := by
  simp [isActiveFor, mkAttendance]

theorem insideCount_single_mk (e emp : Nat) (d now today : Int) (act : String) :
    insideCount e d [mkAttendance emp now today act] =
      if emp = e ∧ today = d then 1 else 0 := by
  by_cases h : emp = e ∧ today = d <;>
    simp [insideCount_cons, insideCount_nil, isActive_mk, h]

theorem findInside_none_count (emp : Nat) (today : Int) :
    ∀ table : List Attendance, findInside emp today table = none →
      insideCount emp today table = 0 := by
  intro table
  induction table with
  | nil => intro _; rfl
  | cons s rest ih =>
    intro h
    by_cases hs : isActiveFor emp today s
    · simp [findInside, hs] at h
    · simp only [findInside, if_neg hs] at h
      rw [insideCount_cons, if_neg hs, ih h]

theorem findInside_some_count (emp : Nat) (today : Int) :
    ∀ (table : List Attendance) (s : Attendance), findInside emp today table = some s →
      1 ≤ insideCount emp today table := by
  intro table
  induction table with
  | nil => intro s h; cases h
  | cons x rest ih =>
    intro s h
    by_cases hx : isActiveFor emp today x
    · rw [insideCount_cons, if_pos hx]
      omega
    · simp only [findInside, if_neg hx] at h
      rw [insideCount_cons, if_neg hx]
      have := ih s h
      omega

theorem mark_not_active (e : Nat) (d now : Int) (s : Attendance) :
    ¬ isActiveFor e d { s with exit_time := some now, status := Status.exited } := by
  simp [isActiveFor]

theorem mark_count_self (emp : Nat) (today now : Int) :
    ∀ (table : List Attendance) (s : Attendance), findInside emp today table = some s →
      insideCount emp today (markFirstInsideExited emp today now table) + 1 =
        insideCount emp today table := by
  intro table
  induction table with
  | nil => intro s h; cases h
  | cons x rest ih =>
    intro s h
    by_cases hx : isActiveFor emp today x
    · simp only [markFirstInsideExited, if_pos hx]
      rw [insideCount_cons, insideCount_cons, if_pos hx,
        if_neg (mark_not_active emp today now x)]
    · simp only [findInside, if_neg hx] at h
      simp only [markFirstInsideExited, if_neg hx]
      rw [insideCount_cons, insideCount_cons, if_neg hx, ← ih s h]

theorem mark_count_other (emp : Nat) (today now : Int) (e : Nat) (d : Int)
    (h : ¬ (emp = e ∧ today = d)) :
    ∀ table : List Attendance,
      insideCount e d (markFirstInsideExited emp today now table) =
        insideCount e d table := by
  intro table
  induction table with
  | nil => rfl
  | cons x rest ih =>
    by_cases hx : isActiveFor emp today x
    · simp only [markFirstInsideExited, if_pos hx]
      rw [insideCount_cons, insideCount_cons, if_neg (mark_not_active e d now x)]
      have hxe : ¬ isActiveFor e d x := by
        intro hact
        exact h ⟨hx.1 ▸ hact.1.symm ▸ rfl, by
          have h1 := hx.2.1
          have h2 := hact.2.1
          omega⟩
      rw [if_neg hxe]
    · simp only [markFirstInsideExited, if_neg hx]
      rw [insideCount_cons, insideCount_cons, ih]

theorem mark_count_le (emp : Nat) (today now : Int) (e : Nat) (d : Int) :
    ∀ table : List Attendance,
      insideCount e d (markFirstInsideExited emp today now table) ≤
        insideCount e d table := by
  intro table
  induction table with
  | nil => exact le_refl 0
  | cons x rest ih =>
    by_cases hx : isActiveFor emp today x
    · simp only [markFirstInsideExited, if_pos hx]
      rw [insideCount_cons, insideCount_cons, if_neg (mark_not_active e d now x)]
      omega
    · simp only [markFirstInsideExited, if_neg hx]
      rw [insideCount_cons, insideCount_cons]
      omega

theorem mark_mem (emp : Nat) (today now : Int) :
    ∀ (table : List Attendance) (s : Attendance), findInside emp today table = some s →
      { s with exit_time := some now, status := Status.exited } ∈
        markFirstInsideExited emp today now table := by
  intro table
  induction table with
  | nil => intro s h; cases h
  | cons x rest ih =>
    intro s h
    by_cases hx : isActiveFor emp today x
    · simp only [findInside, if_pos hx, Option.some.injEq] at h
      subst h
      simp only [markFirstInsideExited, if_pos hx]
      exact List.mem_cons_self _ _
    · simp only [findInside, if_neg hx] at h
      simp only [markFirstInsideExited, if_neg hx]
      exact List.mem_cons_of_mem x (ih s h)

theorem count_pos_of_mem (emp : Nat) (today : Int) (table : List Attendance)
    (s : Attendance) (hmem : s ∈ table) (hs : isActiveFor emp today s) :
    1 ≤ insideCount emp today table := by
  have : 0 < insideCount emp today table := by
    rw [insideCount, List.countP_pos_iff]
    exact ⟨s, hmem, by simpa using hs⟩
  omega

theorem findInside_eq_of_mem (emp : Nat) (today : Int) :
    ∀ (table : List Attendance) (s : Attendance),
      insideCount emp today table ≤ 1 → s ∈ table → isActiveFor emp today s →
      findInside emp today table = some s := by
  intro table
  induction table with
  | nil => intro s _ hmem _; cases hmem
  | cons x rest ih =>
    intro s hcount hmem hs
    by_cases hx : isActiveFor emp today x
    · simp only [findInside, if_pos hx]
      rcases List.mem_cons.mp hmem with heq | hmemrest
      · rw [heq]
      · rw [insideCount_cons, if_pos hx] at hcount
        have := count_pos_of_mem emp today rest s hmemrest hs
        omega
    · have hne : s ≠ x := fun he => hx (he ▸ hs)
      rcases List.mem_cons.mp hmem with heq | hmemrest
      · exact absurd heq hne
      · simp only [findInside, if_neg hx]
        rw [insideCount_cons, if_neg hx] at hcount
        exact ih s (by omega) hmemrest hs

/-- C9: the attendance-store invariant — at most one inside session per
identity and date — is preserved by both log_entry and log_exit; and whenever
log_entry opens a new session while a prior inside session for that identity
and date exists (past the 5-minute guard), it succeeds and the prior session
appears in the resulting table marked exited with its exit_time set, all
within the same call. -/
theorem claim9_invariant (table : List Attendance) (emp : Nat) (now today : Int)
    (act : String) (hinv : dbInvariant table) :
    dbInvariant (log_entry emp now today act table).table ∧
    dbInvariant (log_exit emp now today table).table ∧
    (∀ s, findInside emp today table = some s →
      dbEntryCooldownSecs ≤ now - s.entry_time →
      (log_entry emp now today act table).success = true ∧
      { s with exit_time := some now, status := Status.exited } ∈
        (log_entry emp now today act table).table) := by
  refine ⟨?_, ?_, ?_⟩
  · cases hfi : findInside emp today table with
    | none =>
      simp only [log_entry, hfi]
      intro e d
      rw [insideCount_append, insideCount_single_mk]
      by_cases h : emp = e ∧ today = d
      · rw [if_pos h]
        obtain ⟨rfl, rfl⟩ := h
        rw [findInside_none_count _ _ table hfi]
      · rw [if_neg h]
        have h2 := hinv e d
        omega
    | some s =>
      simp only [log_entry, hfi]
      by_cases hrec : now - s.entry_time < dbEntryCooldownSecs
      · rw [if_pos hrec]
        exact hinv
      · rw [if_neg hrec]
        intro e d
        rw [insideCount_append, insideCount_single_mk]
        by_cases h : emp = e ∧ today = d
        · rw [if_pos h]
          obtain ⟨rfl, rfl⟩ := h
          have h1 := mark_count_self emp today now table s hfi
          have h2 := hinv emp today
          omega
        · rw [if_neg h, mark_count_other emp today now e d h table]
          have h2 := hinv e d
          omega
  · cases hfe : findInside emp today table with
    | some s =>
      simp only [log_exit, hfe]
      intro e d
      have h1 := mark_count_le emp today now e d table
      have h2 := hinv e d
      omega
    | none =>
      simp only [log_exit, hfe]
      exact hinv
  · intro s hfi hge
    simp only [log_entry, hfi]
    rw [if_neg (by omega : ¬ now - s.entry_time < dbEntryCooldownSecs)]
    exact ⟨rfl, List.mem_append.mpr (Or.inl (mark_mem emp today now table s hfi))⟩

/-- C9 witness: the invariant statement applied to the empty table. -/
theorem claim9_witness :
    dbInvariant (log_entry 1 0 0 "Unknown" []).table ∧
    dbInvariant (log_exit 1 0 0 []).table ∧
    (∀ s, findInside 1 0 [] = some s → dbEntryCooldownSecs ≤ 0 - s.entry_time →
      (log_entry 1 0 0 "Unknown" []).success = true ∧
      { s with exit_time := some (0 : Int), status := Status.exited } ∈
        (log_entry 1 0 0 "Unknown" []).table) :=
  claim9_invariant [] 1 0 0 "Unknown" (fun e d => by simp [insideCount])

/-- C10: under the store invariant, when an inside session of the employee on
the current date exists whose entry_time is less than 5 minutes (a literal
constant in log_entry, independent of Config.ENTRY_EXIT_COOLDOWN_MINUTES)
before `now`, log_entry fails with 'Entry already logged recently' and
returns the table unchanged — nothing is opened or closed. -/
theorem claim10_db_guard (table : List Attendance) (emp : Nat) (now today : Int)
    (act : String) (s : Attendance) (hinv : dbInvariant table) (hmem : s ∈ table)
    (h1 : s.employee_id = emp) (h2 : s.date = today) (h3 : s.status = Status.inside)
    (h4 : now - s.entry_time < dbEntryCooldownSecs) :
    log_entry emp now today act table =
      ⟨table, false, some "Entry already logged recently"⟩ := by
  have hfi := findInside_eq_of_mem emp today table s (hinv emp today) hmem ⟨h1, h2, h3⟩
  simp only [log_entry, hfi]
  rw [if_pos h4]

/-- C10 witness: a single inside session logged at time 0; a second log_entry
at time 100 (within 300 s) is rejected and the table is unchanged. -/
theorem claim10_witness :
    log_entry 1 100 0 "Unknown" [⟨1, 0, none, "Unknown", 0, Status.inside⟩] =
      ⟨[⟨1, 0, none, "Unknown", 0, Status.inside⟩], false,
        some "Entry already logged recently"⟩ :=
  claim10_db_guard [⟨1, 0, none, "Unknown", 0, Status.inside⟩] 1 100 0 "Unknown"
    ⟨1, 0, none, "Unknown", 0, Status.inside⟩
    (by
      intro e d
      by_cases h : isActiveFor e d ⟨1, 0, none, "Unknown", 0, Status.inside⟩ <;>
        simp [insideCount, List.countP_cons, h])
    (by simp) rfl rfl rfl (by decide)

end DetectionMonitoring
